import Mathlib

/-!
Verification of the ACSF tutorial notebooks (trimer notebook `ACSF.ipynb`,
dimer notebook `ACSF-Dimer.ipynb`, and the total-energy-prediction notebook
bundled with the dimer file).

The Python code is shallowly embedded: atomic coordinates are triples of
reals, `numpy.linalg.norm` of a difference vector is the explicit Euclidean
distance, the accumulation loops become `List.foldl` over `List.finRange`
(the loop `for j in range(n)` iterating over the row indices of the
coordinate array), and the in-place column updates of the standardization
cells become column-indexed rebuilds of the list-of-rows matrix.
The notebooks fix three (trimer) respectively two (dimer) atoms; the loops
read the coordinate array only through indexing, so the embedding keeps the
loop bodies verbatim but lets the array have `n` rows.
-/

/-- A 3D atomic position, as one row of the numpy coordinate array. -/
def Pt : Type := ℝ × ℝ × ℝ

/-- Componentwise difference of two coordinate rows (`atoms[i]-atoms[j]`). -/
def sub3 (u v : Pt) : Pt :=
  (u.1 - v.1, u.2.1 - v.2.1, u.2.2 - v.2.2)

/-- `numpy.dot` of two 3-vectors. -/
def dot3 (u v : Pt) : ℝ :=
  u.1 * v.1 + u.2.1 * v.2.1 + u.2.2 * v.2.2

/-- `numpy.linalg.norm(u - v)`: the Euclidean distance between two rows. -/
noncomputable def dist3 (u v : Pt) : ℝ :=
  Real.sqrt ((u.1 - v.1) ^ 2 + (u.2.1 - v.2.1) ^ 2 + (u.2.2 - v.2.2) ^ 2)

/-- `numpy.arange(start, stop, step)` over exact rationals (positive step):
the list `start, start+step, ...` of length `ceil((stop-start)/step)`. -/
def arangeQ (start stop step : ℚ) : List ℚ :=
  (List.range (⌈(stop - start) / step⌉).toNat).map (fun (k : ℕ) => start + (k : ℚ) * step)

/-- Column `c` of a list-of-rows matrix (`m[:,c]`). -/
def colList (m : List (List ℝ)) (c : ℕ) : List ℝ :=
  m.map (fun row => row.getD c 0)

/-- `numpy.mean` of a 1D array. -/
noncomputable def npmean (l : List ℝ) : ℝ :=
  l.sum / l.length

/-- `numpy.std` of a 1D array (population standard deviation, ddof = 0). -/
noncomputable def npstd (l : List ℝ) : ℝ :=
  Real.sqrt ((l.map (fun x => (x - npmean l) ^ 2)).sum / l.length)

/-- `numpy.mean(m, axis=0)[c]`. -/
noncomputable def npmeanCol (m : List (List ℝ)) (c : ℕ) : ℝ :=
  npmean (colList m c)

/-- `numpy.std(m, axis=0)[c]`. -/
noncomputable def npstdCol (m : List (List ℝ)) (c : ℕ) : ℝ :=
  npstd (colList m c)

/-- The energy-prediction notebook's guard `train_std[train_std == 0] = 1`,
applied to one entry of the per-column standard deviation vector. -/
noncomputable def guardStd (s : ℝ) : ℝ :=
  if s = 0 then 1 else s

/-- The dimer notebook's centering loop
`for a in range(acsf.shape[1]): acsf[:,a] -= acsf_mean[a]`,
where `acsf_mean = numpy.mean(acsf, axis=0)` is taken before the loop. -/
noncomputable def centerCols (m : List (List ℝ)) : List (List ℝ) :=
  m.map (fun row => (List.range row.length).map (fun c => row.getD c 0 - npmeanCol m c))

/-- The dimer notebook's scaling loop
`for a in range(acsf.shape[1]): acsf[:,a] /= acsf_std[a]`,
where `acsf_std = numpy.std(acsf, axis=0)` is taken from `m` itself
(in the notebook, from the already centered matrix). -/
noncomputable def scaleCols (m : List (List ℝ)) : List (List ℝ) :=
  m.map (fun row => (List.range row.length).map (fun c => row.getD c 0 / npstdCol m c))

namespace ACSF

/-- Trimer notebook: `Rcut = 5.0`, the global cutoff distance for all ACSFs. -/
noncomputable def Rcut : ℝ := 5

/-- Trimer notebook: `def fcut(r): return (math.cos(math.pi * r/Rcut)+1) * 0.5`.
Note: no branch for `r >= Rcut`. -/
noncomputable def fcut (r : ℝ) : ℝ :=
  (Real.cos (Real.pi * r / Rcut) + 1) * 0.5

/-- Trimer notebook:
`def G1f(x, eta, Rs): return math.exp(-eta*(x-Rs)*(x-Rs)) * ((math.cos(math.pi * x/Rcut)+1) * 0.5)`. -/
noncomputable def G1f (x eta Rs : ℝ) : ℝ :=
  Real.exp (-eta * (x - Rs) * (x - Rs)) * ((Real.cos (Real.pi * x / Rcut) + 1) * 0.5)

/-- Trimer notebook: `def G4f(cost, rij, rik, rjk, eta, zeta, lamb)`:
`math.pow(2,1-zeta) * math.pow(1+lamb*cost, zeta) * math.exp(-eta*(rij*rij+rik*rik+rjk*rjk)) * fcut(rij)*fcut(rjk)*fcut(rik)`.
`zeta` is an integer parameter (the notebook uses 1, 2, 3), so the powers are
integer powers. -/
noncomputable def G4f (cost rij rik rjk eta : ℝ) (zeta : ℕ) (lamb : ℝ) : ℝ :=
  (2 : ℝ) ^ ((1 : ℤ) - (zeta : ℤ)) * (1 + lamb * cost) ^ zeta *
    Real.exp (-eta * (rij * rij + rik * rik + rjk * rjk)) *
    (fcut rij * fcut rjk * fcut rik)

/-- Trimer notebook: `theta = 30; theta *= math.pi/180`. -/
noncomputable def theta : ℝ := 30 * (Real.pi / 180)

/-- Trimer notebook: the concrete 3-atom configuration
`atoms[0] = 0, atoms[1] = [cos t, -sin t, 0], atoms[2] = [-cos t, -sin t, 0]`. -/
noncomputable def atoms : Fin 3 → Pt :=
  ![((0 : ℝ), (0 : ℝ), (0 : ℝ)),
    (Real.cos theta, -Real.sin theta, 0),
    (-Real.cos theta, -Real.sin theta, 0)]

/-- Trimer notebook, G0 loop for one central atom `i`:
`for j: if i == j: continue; r = norm(atoms[i]-atoms[j]); if r > Rcut: continue; G0[i] += fcut(r)`. -/
noncomputable def G0 (n : ℕ) (a : Fin n → Pt) (i : Fin n) : ℝ :=
  (List.finRange n).foldl
    (fun acc j =>
      if j = i then acc
      else if dist3 (a i) (a j) > Rcut then acc
      else acc + fcut (dist3 (a i) (a j))) 0

/-- Trimer notebook, G1 loop for one central atom `i` and one parameter pair
`(eta, Rs)`: same loop as G0 with `G1[i,k] += G1f(r, eta, rs)`. -/
noncomputable def G1 (n : ℕ) (a : Fin n → Pt) (i : Fin n) (eta Rs : ℝ) : ℝ :=
  (List.finRange n).foldl
    (fun acc j =>
      if j = i then acc
      else if dist3 (a i) (a j) > Rcut then acc
      else acc + G1f (dist3 (a i) (a j)) eta Rs) 0

/-- Trimer notebook, G4 double loop for one central atom `i` and one
parameter triple `(eta, zeta, lamb)`:
`for j: if i == j: continue; rij = ...; if rij > Rcut: continue;`
`for k: if k == i or k == j: continue; rik = ...; rjk = ...;`
`cost = dot(atoms[i]-atoms[k], atoms[i]-atoms[j]) / (rij*rik);`
`G4[i,·] += G4f(cost, rij, rik, rjk, eta, zeta, lamb)`.
There is no cutoff test on `rik` or `rjk`. -/
noncomputable def G4 (n : ℕ) (a : Fin n → Pt) (i : Fin n) (eta : ℝ) (zeta : ℕ) (lamb : ℝ) : ℝ :=
  (List.finRange n).foldl
    (fun acc j =>
      if j = i then acc
      else if dist3 (a i) (a j) > Rcut then acc
      else
        (List.finRange n).foldl
          (fun acc2 k =>
            if k = i ∨ k = j then acc2
            else acc2 + G4f
              (dot3 (sub3 (a i) (a k)) (sub3 (a i) (a j)) / (dist3 (a i) (a j) * dist3 (a i) (a k)))
              (dist3 (a i) (a j)) (dist3 (a i) (a k)) (dist3 (a j) (a k)) eta zeta lamb) acc) 0

/-- The amount one loop iteration `j` adds to `G0[i]` (0 where the loop
does `continue`). -/
noncomputable def g0term (n : ℕ) (a : Fin n → Pt) (i j : Fin n) : ℝ :=
  if j = i then 0
  else if dist3 (a i) (a j) > Rcut then 0
  else fcut (dist3 (a i) (a j))

/-- The amount one loop iteration `j` adds to `G1[i]` for the parameter
pair `(eta, Rs)` (0 where the loop does `continue`). -/
noncomputable def g1term (n : ℕ) (a : Fin n → Pt) (i j : Fin n) (eta Rs : ℝ) : ℝ :=
  if j = i then 0
  else if dist3 (a i) (a j) > Rcut then 0
  else G1f (dist3 (a i) (a j)) eta Rs

/-- The amount the inner iteration `k` (given that the outer iteration `j`
passed its guards) adds to `G4[i]`. -/
noncomputable def g4term (n : ℕ) (a : Fin n → Pt) (i j k : Fin n) (eta : ℝ) (zeta : ℕ) (lamb : ℝ) : ℝ :=
  if k = i ∨ k = j then 0
  else G4f
    (dot3 (sub3 (a i) (a k)) (sub3 (a i) (a j)) / (dist3 (a i) (a j) * dist3 (a i) (a k)))
    (dist3 (a i) (a j)) (dist3 (a i) (a k)) (dist3 (a j) (a k)) eta zeta lamb

/-- The amount the triplet `(i, j, k)` contributes to `G4[i]`, including the
outer loop's guards on `j`. -/
noncomputable def g4contrib (n : ℕ) (a : Fin n → Pt) (i j k : Fin n) (eta : ℝ) (zeta : ℕ) (lamb : ℝ) : ℝ :=
  if j = i then 0
  else if dist3 (a i) (a j) > Rcut then 0
  else g4term n a i j k eta zeta lamb

/-- Modelled from the spec: "for each atom, sum a closed-form function of
pairwise distances": the closed-form sum over all other atoms `j` with
`r_ij` at most `Rcut` of `exp(-eta*(r_ij - Rs)^2) * fcut(r_ij)`.  To be
compared with the loop-defined `G1`. -/
noncomputable def G1spec (n : ℕ) (a : Fin n → Pt) (i : Fin n) (eta Rs : ℝ) : ℝ :=
  ∑ j ∈ Finset.univ.filter (fun j => j ≠ i ∧ dist3 (a i) (a j) ≤ Rcut),
    Real.exp (-eta * (dist3 (a i) (a j) - Rs) ^ 2) * fcut (dist3 (a i) (a j))

/-- Trimer notebook: the G1 parameter list
`p = [(0.4, 0.2),(0.4, 0.5),(0.4, 1.0),(0.5, 2.0),(0.5, 3.0),(0.5, 4.0)]`. -/
def p : List (ℚ × ℚ) := [(0.4, 0.2), (0.4, 0.5), (0.4, 1), (0.5, 2), (0.5, 3), (0.5, 4)]

/-- Trimer notebook: the matrix `G1 = numpy.zeros((3, len(p)))` after the
fill loop — one row per atom, one column per parameter pair. -/
noncomputable def G1mat : List (List ℝ) :=
  (List.finRange 3).map (fun i => p.map (fun q => G1 3 atoms i (q.1 : ℝ) (q.2 : ℝ)))

end ACSF

namespace Dimer

/-- Dimer notebook: `Rcut = 5.0`. -/
noncomputable def Rcut : ℝ := 5

/-- Dimer notebook: `def fcut(r): if r >= Rcut: return 0; return (math.cos(math.pi * r/Rcut)+1) * 0.5`. -/
noncomputable def fcut (r : ℝ) : ℝ :=
  if r ≥ Rcut then 0 else (Real.cos (Real.pi * r / Rcut) + 1) * 0.5

/-- Dimer notebook: `def G1f(r, eta, Rs): return math.exp(-eta*(r-Rs)*(r-Rs)) * fcut(r)`. -/
noncomputable def G1f (r eta Rs : ℝ) : ℝ :=
  Real.exp (-eta * (r - Rs) * (r - Rs)) * fcut r

/-- Dimer notebook: `dists = numpy.arange(1.95, Rcut, Rcut/30)`, as exact
rationals. -/
def distsQ : List ℚ := arangeQ 1.95 5 (5 / 30)

/-- The dimer distances as reals. -/
noncomputable def dists : List ℝ := distsQ.map (fun (q : ℚ) => (q : ℝ))

/-- Dimer notebook: `params = [(0.4, 0.2),(0.4, 0.5)]`. -/
def params : List (ℚ × ℚ) := [(0.4, 0.2), (0.4, 0.5)]

/-- Dimer notebook: `nConfs = dists.shape[0]`. -/
noncomputable def nConfs : ℕ := dists.length

/-- Dimer notebook: the matrix `acsf = numpy.zeros((nConfs, 1+len(params)))`
after the fill loop: row `k` is
`[fcut(dists[k]), G1f(dists[k], params[0]), G1f(dists[k], params[1])]`
(`acsf[k,0] = fcut(r)`, `acsf[k,1+p] = G1f(r, eta, rs)`). -/
noncomputable def acsf : List (List ℝ) :=
  dists.map (fun r => fcut r :: params.map (fun q => G1f r (q.1 : ℝ) (q.2 : ℝ)))

end Dimer

namespace Energy

/-- Energy-prediction notebook: `samples = min(trainIn.shape[0], 9000)`.
Python integers are unbounded, hence `ℤ`. -/
def samples (rows : ℤ) : ℤ := min rows 9000

/-- Energy-prediction notebook: `vsamples = min(trainIn.shape[0]-samples, 1000)`. -/
def vsamples (rows : ℤ) : ℤ := min (rows - samples rows) 1000

end Energy

/-- The global state visible to the trimer notebook's descriptor functions:
the cutoff `Rcut` they read, plus the rest of the notebook's mutable
globals (represented by the coordinate array), which they do not touch. -/
structure PyState where
  Rcut : ℝ
  atoms : Fin 3 → Pt

/-- `fcut` as a state transformer: reads `Rcut` from the global state,
returns its value and the (unchanged) state. -/
noncomputable def fcutS (s : PyState) (r : ℝ) : ℝ × PyState :=
  ((Real.cos (Real.pi * r / s.Rcut) + 1) * 0.5, s)

/-- `G1f` as a state transformer. -/
noncomputable def G1fS (s : PyState) (x eta Rs : ℝ) : ℝ × PyState :=
  (Real.exp (-eta * (x - Rs) * (x - Rs)) * ((Real.cos (Real.pi * x / s.Rcut) + 1) * 0.5), s)

/-- `G4f` as a state transformer (it reads the global only through `fcut`). -/
noncomputable def G4fS (s : PyState) (cost rij rik rjk eta : ℝ) (zeta : ℕ) (lamb : ℝ) : ℝ × PyState :=
  ((2 : ℝ) ^ ((1 : ℤ) - (zeta : ℤ)) * (1 + lamb * cost) ^ zeta *
      Real.exp (-eta * (rij * rij + rik * rik + rjk * rjk)) *
      ((fcutS s rij).1 * (fcutS s rjk).1 * (fcutS s rik).1), s)

/-- A concrete well-formed 3-atom configuration (three distinct collinear
points), used to instantiate the general theorems. -/
noncomputable def cfg3 : Fin 3 → Pt :=
  ![((0 : ℝ), (0 : ℝ), (0 : ℝ)), ((2.5 : ℝ), (0 : ℝ), (0 : ℝ)), ((10 : ℝ), (0 : ℝ), (0 : ℝ))]

/-! ## Helper lemmas -/

/-- An accumulation loop `for x in l: acc += f(x)` computes `init`
plus the sum of the per-iteration contributions. -/
lemma foldl_add_eq {α : Type} (f : α → ℝ) :
    ∀ (l : List α) (init : ℝ),
      l.foldl (fun acc x => acc + f x) init = init + (l.map f).sum := by
  intro l
  induction l with
  | nil => intro init; simp
  | cons x xs ih =>
      intro init
      simp only [List.foldl_cons, List.map_cons, List.sum_cons, ih]
      ring

/-- The G0 loop computes the sum of its per-iteration contributions. -/
lemma G0_eq_sum (n : ℕ) (a : Fin n → Pt) (i : Fin n) :
    ACSF.G0 n a i = ∑ j, ACSF.g0term n a i j := by
  have hbody :
      (fun (acc : ℝ) (j : Fin n) =>
        if j = i then acc
        else if dist3 (a i) (a j) > ACSF.Rcut then acc
        else acc + ACSF.fcut (dist3 (a i) (a j))) =
      fun acc j => acc + ACSF.g0term n a i j := by
    funext acc j
    rw [ACSF.g0term]
    by_cases h1 : j = i
    · simp [h1]
    · by_cases h2 : dist3 (a i) (a j) > ACSF.Rcut
      · simp [h1, h2]
      · simp [h1, h2]
  rw [ACSF.G0, hbody, foldl_add_eq, zero_add, Fin.sum_univ_def]

/-- The G1 loop computes the sum of its per-iteration contributions. -/
lemma G1_eq_sum (n : ℕ) (a : Fin n → Pt) (i : Fin n) (eta Rs : ℝ) :
    ACSF.G1 n a i eta Rs = ∑ j, ACSF.g1term n a i j eta Rs := by
  have hbody :
      (fun (acc : ℝ) (j : Fin n) =>
        if j = i then acc
        else if dist3 (a i) (a j) > ACSF.Rcut then acc
        else acc + ACSF.G1f (dist3 (a i) (a j)) eta Rs) =
      fun acc j => acc + ACSF.g1term n a i j eta Rs := by
    funext acc j
    rw [ACSF.g1term]
    by_cases h1 : j = i
    · simp [h1]
    · by_cases h2 : dist3 (a i) (a j) > ACSF.Rcut
      · simp [h1, h2]
      · simp [h1, h2]
  rw [ACSF.G1, hbody, foldl_add_eq, zero_add, Fin.sum_univ_def]

/-- The G4 double loop computes the double sum of the triplet contributions. -/
lemma G4_eq_sum (n : ℕ) (a : Fin n → Pt) (i : Fin n) (eta : ℝ) (zeta : ℕ) (lamb : ℝ) :
    ACSF.G4 n a i eta zeta lamb = ∑ j, ∑ k, ACSF.g4contrib n a i j k eta zeta lamb := by
  have hinner : ∀ (j : Fin n) (acc : ℝ),
      (List.finRange n).foldl
        (fun acc2 k =>
          if k = i ∨ k = j then acc2
          else acc2 + ACSF.G4f
            (dot3 (sub3 (a i) (a k)) (sub3 (a i) (a j)) /
              (dist3 (a i) (a j) * dist3 (a i) (a k)))
            (dist3 (a i) (a j)) (dist3 (a i) (a k)) (dist3 (a j) (a k)) eta zeta lamb) acc =
      acc + ∑ k, ACSF.g4term n a i j k eta zeta lamb := by
    intro j acc
    have hb :
        (fun (acc2 : ℝ) (k : Fin n) =>
          if k = i ∨ k = j then acc2
          else acc2 + ACSF.G4f
            (dot3 (sub3 (a i) (a k)) (sub3 (a i) (a j)) /
              (dist3 (a i) (a j) * dist3 (a i) (a k)))
            (dist3 (a i) (a j)) (dist3 (a i) (a k)) (dist3 (a j) (a k)) eta zeta lamb) =
        fun acc2 k => acc2 + ACSF.g4term n a i j k eta zeta lamb := by
      funext acc2 k
      rw [ACSF.g4term]
      by_cases h1 : k = i ∨ k = j
      · simp [h1]
      · simp [h1]
    rw [hb, foldl_add_eq, Fin.sum_univ_def]
  have hbody :
      (fun (acc : ℝ) (j : Fin n) =>
        if j = i then acc
        else if dist3 (a i) (a j) > ACSF.Rcut then acc
        else
          (List.finRange n).foldl
            (fun acc2 k =>
              if k = i ∨ k = j then acc2
              else acc2 + ACSF.G4f
                (dot3 (sub3 (a i) (a k)) (sub3 (a i) (a j)) /
                  (dist3 (a i) (a j) * dist3 (a i) (a k)))
                (dist3 (a i) (a j)) (dist3 (a i) (a k)) (dist3 (a j) (a k)) eta zeta lamb) acc) =
      fun acc j => acc + ∑ k, ACSF.g4contrib n a i j k eta zeta lamb := by
    funext acc j
    by_cases h1 : j = i
    · simp [h1, ACSF.g4contrib]
    · by_cases h2 : dist3 (a i) (a j) > ACSF.Rcut
      · simp [h1, h2, ACSF.g4contrib]
      · rw [if_neg h1, if_neg h2, hinner j acc]
        congr 1
        apply Finset.sum_congr rfl
        intro k _
        rw [ACSF.g4contrib, if_neg h1, if_neg h2]
  rw [ACSF.G4, hbody, foldl_add_eq, zero_add, Fin.sum_univ_def]

/-- The Euclidean distance between distinct points is positive. -/
lemma dist3_pos (u v : Pt) (h : u ≠ v) : 0 < dist3 u v := by
  rw [dist3]
  apply Real.sqrt_pos.mpr
  have hsum : (0 : ℝ) ≤ (u.1 - v.1) ^ 2 + (u.2.1 - v.2.1) ^ 2 + (u.2.2 - v.2.2) ^ 2 := by
    positivity
  rcases eq_or_lt_of_le hsum with heq | hlt
  · exfalso
    apply h
    have h1 : (u.1 - v.1) ^ 2 = 0 := by
      nlinarith [sq_nonneg (u.1 - v.1), sq_nonneg (u.2.1 - v.2.1), sq_nonneg (u.2.2 - v.2.2)]
    have h2 : (u.2.1 - v.2.1) ^ 2 = 0 := by
      nlinarith [sq_nonneg (u.1 - v.1), sq_nonneg (u.2.1 - v.2.1), sq_nonneg (u.2.2 - v.2.2)]
    have h3 : (u.2.2 - v.2.2) ^ 2 = 0 := by
      nlinarith [sq_nonneg (u.1 - v.1), sq_nonneg (u.2.1 - v.2.1), sq_nonneg (u.2.2 - v.2.2)]
    have e1 : u.1 = v.1 := by nlinarith [h1]
    have e2 : u.2.1 = v.2.1 := by nlinarith [h2]
    have e3 : u.2.2 = v.2.2 := by nlinarith [h3]
    show u = v
    exact Prod.ext e1 (Prod.ext e2 e3)
  · exact hlt

lemma cfg3_zero : cfg3 0 = ((0 : ℝ), (0 : ℝ), (0 : ℝ)) := rfl

lemma cfg3_one : cfg3 1 = ((2.5 : ℝ), (0 : ℝ), (0 : ℝ)) := rfl

lemma cfg3_two : cfg3 2 = ((10 : ℝ), (0 : ℝ), (0 : ℝ)) := rfl

/-- The three concrete atoms sit at pairwise distinct positions. -/
lemma cfg3_inj : Function.Injective cfg3 := by
  intro x y hxy
  have h : (cfg3 x).1 = (cfg3 y).1 := congrArg Prod.fst hxy
  fin_cases x <;> fin_cases y <;>
    first
      | rfl
      | (exfalso
         norm_num [cfg3, Matrix.cons_val_zero, Matrix.cons_val_one, Matrix.head_cons,
           Matrix.cons_val_two, Matrix.vecTail, Matrix.vecHead] at h)

lemma dist3_cfg01 : dist3 (cfg3 0) (cfg3 1) = 2.5 := by
  rw [cfg3_zero, cfg3_one, dist3]
  show Real.sqrt (((0 : ℝ) - 2.5) ^ 2 + ((0 : ℝ) - 0) ^ 2 + ((0 : ℝ) - 0) ^ 2) = 2.5
  rw [show ((0 : ℝ) - 2.5) ^ 2 + ((0 : ℝ) - 0) ^ 2 + ((0 : ℝ) - 0) ^ 2 = 2.5 ^ 2 by norm_num]
  exact Real.sqrt_sq (by norm_num)

lemma dist3_cfg02 : dist3 (cfg3 0) (cfg3 2) = 10 := by
  rw [cfg3_zero, cfg3_two, dist3]
  show Real.sqrt (((0 : ℝ) - 10) ^ 2 + ((0 : ℝ) - 0) ^ 2 + ((0 : ℝ) - 0) ^ 2) = 10
  rw [show ((0 : ℝ) - 10) ^ 2 + ((0 : ℝ) - 0) ^ 2 + ((0 : ℝ) - 0) ^ 2 = 10 ^ 2 by norm_num]
  exact Real.sqrt_sq (by norm_num)

lemma dist3_cfg12 : dist3 (cfg3 1) (cfg3 2) = 7.5 := by
  rw [cfg3_one, cfg3_two, dist3]
  show Real.sqrt (((2.5 : ℝ) - 10) ^ 2 + ((0 : ℝ) - 0) ^ 2 + ((0 : ℝ) - 0) ^ 2) = 7.5
  rw [show ((2.5 : ℝ) - 10) ^ 2 + ((0 : ℝ) - 0) ^ 2 + ((0 : ℝ) - 0) ^ 2 = 7.5 ^ 2 by norm_num]
  exact Real.sqrt_sq (by norm_num)

lemma fcut_at_25 : ACSF.fcut 2.5 = 0.5 := by
  rw [ACSF.fcut, ACSF.Rcut, show Real.pi * 2.5 / 5 = Real.pi / 2 by ring,
    Real.cos_pi_div_two]
  norm_num

lemma fcut_at_75 : ACSF.fcut 7.5 = 0.5 := by
  rw [ACSF.fcut, ACSF.Rcut, show Real.pi * 7.5 / 5 = Real.pi + Real.pi / 2 by ring,
    Real.cos_add, Real.cos_pi, Real.sin_pi, Real.cos_pi_div_two, Real.sin_pi_div_two]
  norm_num

lemma fcut_at_10 : ACSF.fcut 10 = 1 := by
  rw [ACSF.fcut, ACSF.Rcut, show Real.pi * 10 / 5 = 2 * Real.pi by ring,
    Real.cos_two_pi]
  norm_num

lemma npstd_nonneg (l : List ℝ) : 0 ≤ npstd l :=
  Real.sqrt_nonneg _

/-! ## Claim theorems -/

/-- Claim C2, counterexample: the trimer notebook's `fcut` does not return
zero beyond the cutoff: at `r = 7.5 > Rcut = 5` it returns
`(cos(3*pi/2)+1)/2 = 0.5`. -/
theorem C2_counterexample : (7.5 : ℝ) > ACSF.Rcut ∧ ACSF.fcut 7.5 ≠ 0 := by
  constructor
  · rw [ACSF.Rcut]; norm_num
  · rw [fcut_at_75]; norm_num

/-- Claim C2 (amended): only the dimer notebook's `fcut` (which has the
explicit `if r >= Rcut: return 0` guard) returns exactly zero for every
distance greater than the cutoff radius; the trimer notebook's `fcut` has no
such guard and is nonzero at some distances beyond `Rcut`. -/
theorem C2_dimer_fcut_zero (r : ℝ) (h : r > Dimer.Rcut) : Dimer.fcut r = 0 := by
  rw [Dimer.fcut, if_pos (le_of_lt h)]

/-- Witness for C2: the dimer cutoff function vanishes at the concrete
distance 6 > 5. -/
theorem C2_witness : (6 : ℝ) > Dimer.Rcut ∧ Dimer.fcut 6 = 0 :=
  ⟨by rw [Dimer.Rcut]; norm_num, C2_dimer_fcut_zero 6 (by rw [Dimer.Rcut]; norm_num)⟩

/-- Claim C6 (confirmed): on a well-formed configuration (pairwise-distinct
atom positions) the denominator `rij * rik` of the angle-cosine computation
in the G4 loop is strictly positive for every pair of non-central atoms
`j, k`, so the division never divides by zero.  All remaining operations of
the G0/G1/G4 evaluation (including `math.pow(1+lamb*cost, zeta)` with the
integer `zeta` of the parameter triples, modelled as an integer power) are
total in the embedding. -/
theorem C6_no_division_by_zero (n : ℕ) (a : Fin n → Pt) (hWF : Function.Injective a)
    (i j k : Fin n) (hj : j ≠ i) (hk : k ≠ i) :
    0 < dist3 (a i) (a j) * dist3 (a i) (a k) :=
  mul_pos (dist3_pos _ _ (fun h => hj (hWF h).symm))
    (dist3_pos _ _ (fun h => hk (hWF h).symm))

/-- Witness for C6 at the concrete three-atom configuration. -/
theorem C6_witness :
    Function.Injective cfg3 ∧ ((1 : Fin 3) ≠ 0) ∧ ((2 : Fin 3) ≠ 0) ∧
      0 < dist3 (cfg3 0) (cfg3 1) * dist3 (cfg3 0) (cfg3 2) :=
  ⟨cfg3_inj, by decide, by decide,
    C6_no_division_by_zero 3 cfg3 cfg3_inj 0 1 2 (by decide) (by decide)⟩

/-- Claim C8 (confirmed): the descriptor evaluators are stateless pure
functions.  Modelling them as state transformers over the notebook's global
state, two evaluations on the same arguments in any two states that agree
on the global `Rcut` return the same value, and each evaluation returns the
state unchanged. -/
theorem C8_pure_functions (s₁ s₂ : PyState) (r cost rij rik rjk eta Rs lamb : ℝ) (zeta : ℕ)
    (h : s₁.Rcut = s₂.Rcut) :
    ((fcutS s₁ r).1 = (fcutS s₂ r).1 ∧ (fcutS s₁ r).2 = s₁) ∧
    ((G1fS s₁ r eta Rs).1 = (G1fS s₂ r eta Rs).1 ∧ (G1fS s₁ r eta Rs).2 = s₁) ∧
    ((G4fS s₁ cost rij rik rjk eta zeta lamb).1 = (G4fS s₂ cost rij rik rjk eta zeta lamb).1 ∧
      (G4fS s₁ cost rij rik rjk eta zeta lamb).2 = s₁) := by
  refine ⟨⟨?_, rfl⟩, ⟨?_, rfl⟩, ⟨?_, rfl⟩⟩ <;> simp [fcutS, G1fS, G4fS, h]

/-- Witness for C8: two concrete states with the same cutoff but different
coordinate arrays. -/
theorem C8_witness :
    (PyState.mk 5 cfg3).Rcut = (PyState.mk 5 (fun _ => ((0 : ℝ), (0 : ℝ), (0 : ℝ)))).Rcut ∧
    (fcutS (PyState.mk 5 cfg3) 1).1 =
      (fcutS (PyState.mk 5 (fun _ => ((0 : ℝ), (0 : ℝ), (0 : ℝ)))) 1).1 ∧
    (fcutS (PyState.mk 5 cfg3) 1).2 = PyState.mk 5 cfg3 :=
  ⟨rfl, (C8_pure_functions _ _ 1 0 0 0 0 0 0 0 0 rfl).1.1,
    (C8_pure_functions _ _ 1 0 0 0 0 0 0 0 0 rfl).1.2⟩

/-- Claim C9 (confirmed): the energy-prediction notebook's guard
`train_std[train_std == 0] = 1` makes every per-column divisor nonzero for
every input matrix; the raw per-column standard deviation (the dimer
notebook's divisor) is zero on a constant column, and nonzero exactly when
the column is non-constant. -/
theorem C9_std_guard :
    (∀ (m : List (List ℝ)) (c : ℕ), guardStd (npstdCol m c) ≠ 0) ∧
    (∀ (n : ℕ) (x : ℝ), n ≠ 0 → npstd (List.replicate n x) = 0) ∧
    (∀ l : List ℝ, (∃ x ∈ l, ∃ y ∈ l, x ≠ y) → npstd l ≠ 0) := by
  refine ⟨?_, ?_, ?_⟩
  · intro m c
    rw [guardStd]
    by_cases h : npstdCol m c = 0
    · rw [if_pos h]; norm_num
    · rw [if_neg h]; exact h
  · intro n x hn
    have hmean : npmean (List.replicate n x) = x := by
      rw [npmean, List.sum_replicate, List.length_replicate, nsmul_eq_mul]
      field_simp
    rw [npstd, hmean]
    have hmap : (List.replicate n x).map (fun y => (y - x) ^ 2) = List.replicate n 0 := by
      rw [List.map_replicate, sub_self]
      norm_num
    rw [hmap, List.sum_replicate, List.length_replicate]
    simp
  · intro l ⟨x, hx, y, hy, hxy⟩
    have hz : ∃ z ∈ l, z ≠ npmean l := by
      by_cases hxm : x = npmean l
      · exact ⟨y, hy, fun h => hxy (hxm.trans h.symm)⟩
      · exact ⟨x, hx, hxm⟩
    obtain ⟨z, hzl, hzm⟩ := hz
    have hlen : 0 < (l.length : ℝ) := by
      have := List.length_pos.mpr (List.ne_nil_of_mem hzl)
      exact_mod_cast this
    have hterm : 0 < (z - npmean l) ^ 2 :=
      lt_of_le_of_ne (sq_nonneg _) (Ne.symm (pow_ne_zero 2 (sub_ne_zero.mpr hzm)))
    have hmem : (z - npmean l) ^ 2 ∈ l.map (fun w => (w - npmean l) ^ 2) :=
      List.mem_map_of_mem _ hzl
    have hnonneg : ∀ w ∈ l.map (fun w => (w - npmean l) ^ 2), 0 ≤ w := by
      intro w hw
      obtain ⟨u, _, rfl⟩ := List.mem_map.mp hw
      exact sq_nonneg _
    have hsum : 0 < (l.map (fun w => (w - npmean l) ^ 2)).sum :=
      lt_of_lt_of_le hterm (List.single_le_sum hnonneg _ hmem)
    apply ne_of_gt
    rw [npstd]
    exact Real.sqrt_pos.mpr (div_pos hsum hlen)

/-- Witness for C9 at concrete inputs: a constant two-element column and a
non-constant one. -/
theorem C9_witness :
    guardStd (npstdCol [[1, 2], [1, 2]] 0) ≠ 0 ∧
    npstd (List.replicate 2 (5 : ℝ)) = 0 ∧
    npstd [(0 : ℝ), 1] ≠ 0 :=
  ⟨C9_std_guard.1 _ 0, C9_std_guard.2.1 2 5 (by norm_num),
    C9_std_guard.2.2 [0, 1] ⟨0, by simp, 1, by simp, by norm_num⟩⟩

/-- Claim C10 (confirmed): in the energy-prediction notebook's data split,
`vsamples` is never negative, the training slice `[0:samples]` and the
validation slice `[samples:samples+vsamples]` are disjoint, and both index
ranges lie within the bounds `[0:rows]` of the loaded arrays, for every
loaded dataset size. -/
theorem C10_split_invariants (rows : ℤ) (h : 0 ≤ rows) :
    0 ≤ Energy.vsamples rows ∧
    Energy.samples rows + Energy.vsamples rows ≤ rows ∧
    Disjoint (Finset.Ico (0 : ℤ) (Energy.samples rows))
      (Finset.Ico (Energy.samples rows) (Energy.samples rows + Energy.vsamples rows)) ∧
    Finset.Ico (0 : ℤ) (Energy.samples rows) ⊆ Finset.Ico (0 : ℤ) rows ∧
    Finset.Ico (Energy.samples rows) (Energy.samples rows + Energy.vsamples rows) ⊆
      Finset.Ico (0 : ℤ) rows := by
  refine ⟨?_, ?_, Finset.Ico_disjoint_Ico_consecutive 0 _ _, ?_, ?_⟩
  · rw [Energy.vsamples, Energy.samples]; omega
  · rw [Energy.vsamples, Energy.samples]; omega
  · apply Finset.Ico_subset_Ico le_rfl
    rw [Energy.samples]; omega
  · intro t ht
    rw [Finset.mem_Ico] at ht ⊢
    constructor
    · have : 0 ≤ Energy.samples rows := by rw [Energy.samples]; omega
      omega
    · have : Energy.samples rows + Energy.vsamples rows ≤ rows := by
        rw [Energy.vsamples, Energy.samples]; omega
      omega

/-- Witness for C10 at the concrete dataset size 9500 (samples 9000,
vsamples 500). -/
theorem C10_witness :
    (0 : ℤ) ≤ 9500 ∧ 0 ≤ Energy.vsamples 9500 ∧
      Energy.samples 9500 + Energy.vsamples 9500 ≤ 9500 :=
  ⟨by norm_num, (C10_split_invariants 9500 (by norm_num)).1,
    (C10_split_invariants 9500 (by norm_num)).2.1⟩

/-- Claim C4 (confirmed): the loop-computed two-body descriptor equals the
closed-form filtered sum of the spec. -/
theorem C4_G1_closed_form (n : ℕ) (a : Fin n → Pt) (hWF : Function.Injective a)
    (i : Fin n) (eta Rs : ℝ) :
    ACSF.G1 n a i eta Rs = ACSF.G1spec n a i eta Rs := by
  rw [G1_eq_sum, ACSF.G1spec, Finset.sum_filter]
  apply Finset.sum_congr rfl
  intro j _
  rw [ACSF.g1term]
  by_cases h1 : j = i
  · rw [if_pos h1, if_neg]
    simp [h1]
  · by_cases h2 : dist3 (a i) (a j) ≤ ACSF.Rcut
    · rw [if_neg h1, if_neg (not_lt.mpr h2), if_pos ⟨h1, h2⟩, ACSF.G1f, ACSF.fcut,
        show -eta * (dist3 (a i) (a j) - Rs) * (dist3 (a i) (a j) - Rs) =
          -eta * (dist3 (a i) (a j) - Rs) ^ 2 by ring]
    · rw [if_neg h1, if_pos (not_le.mp h2), if_neg (fun hc => h2 hc.2)]

/-- Witness for C4 at the concrete three-atom configuration and the first
parameter pair of the notebook. -/
theorem C4_witness :
    Function.Injective cfg3 ∧
      ACSF.G1 3 cfg3 0 0.4 0.2 = ACSF.G1spec 3 cfg3 0 0.4 0.2 :=
  ⟨cfg3_inj, C4_G1_closed_form 3 cfg3 cfg3_inj 0 0.4 0.2⟩

/-- One G0 loop contribution is invariant when the configuration is
composed with a permutation fixing the central atom. -/
lemma g0term_perm (n : ℕ) (a : Fin n → Pt) (σ : Equiv.Perm (Fin n)) (i : Fin n)
    (hσ : σ i = i) (j : Fin n) :
    ACSF.g0term n (a ∘ σ) i j = ACSF.g0term n a i (σ j) := by
  have hj : (j = i) ↔ (σ j = i) :=
    ⟨fun h => by rw [h, hσ], fun h => σ.injective (h.trans hσ.symm)⟩
  simp only [ACSF.g0term, Function.comp_apply, hσ]
  exact if_congr hj rfl rfl

/-- One G1 loop contribution is invariant in the same sense. -/
lemma g1term_perm (n : ℕ) (a : Fin n → Pt) (σ : Equiv.Perm (Fin n)) (i : Fin n)
    (hσ : σ i = i) (j : Fin n) (eta Rs : ℝ) :
    ACSF.g1term n (a ∘ σ) i j eta Rs = ACSF.g1term n a i (σ j) eta Rs := by
  have hj : (j = i) ↔ (σ j = i) :=
    ⟨fun h => by rw [h, hσ], fun h => σ.injective (h.trans hσ.symm)⟩
  simp only [ACSF.g1term, Function.comp_apply, hσ]
  exact if_congr hj rfl rfl

/-- One G4 triplet contribution is invariant in the same sense. -/
lemma g4contrib_perm (n : ℕ) (a : Fin n → Pt) (σ : Equiv.Perm (Fin n)) (i : Fin n)
    (hσ : σ i = i) (j k : Fin n) (eta : ℝ) (zeta : ℕ) (lamb : ℝ) :
    ACSF.g4contrib n (a ∘ σ) i j k eta zeta lamb =
      ACSF.g4contrib n a i (σ j) (σ k) eta zeta lamb := by
  have hj : (j = i) ↔ (σ j = i) :=
    ⟨fun h => by rw [h, hσ], fun h => σ.injective (h.trans hσ.symm)⟩
  have hk : (k = i ∨ k = j) ↔ (σ k = i ∨ σ k = σ j) := by
    constructor
    · rintro (h | h)
      · left; rw [h, hσ]
      · right; rw [h]
    · rintro (h | h)
      · left; exact σ.injective (h.trans hσ.symm)
      · right; exact σ.injective h
  simp only [ACSF.g4contrib, ACSF.g4term, Function.comp_apply, hσ]
  refine if_congr hj rfl (if_congr Iff.rfl rfl (if_congr hk rfl rfl))

/-- Claim C5 (confirmed): the symmetry-function values at a central atom are
unchanged by any permutation of the coordinate-array rows that fixes the
central row. -/
theorem C5_permutation_invariant (n : ℕ) (a : Fin n → Pt) (hWF : Function.Injective a)
    (σ : Equiv.Perm (Fin n)) (i : Fin n) (hσ : σ i = i) :
    ACSF.G0 n (a ∘ σ) i = ACSF.G0 n a i ∧
    (∀ eta Rs : ℝ, ACSF.G1 n (a ∘ σ) i eta Rs = ACSF.G1 n a i eta Rs) ∧
    (∀ (eta : ℝ) (zeta : ℕ) (lamb : ℝ),
      ACSF.G4 n (a ∘ σ) i eta zeta lamb = ACSF.G4 n a i eta zeta lamb) := by
  refine ⟨?_, fun eta Rs => ?_, fun eta zeta lamb => ?_⟩
  · rw [G0_eq_sum, G0_eq_sum,
      Finset.sum_congr rfl (fun j _ => g0term_perm n a σ i hσ j)]
    exact Equiv.sum_comp σ (ACSF.g0term n a i)
  · rw [G1_eq_sum, G1_eq_sum,
      Finset.sum_congr rfl (fun j _ => g1term_perm n a σ i hσ j eta Rs)]
    exact Equiv.sum_comp σ (fun j => ACSF.g1term n a i j eta Rs)
  · rw [G4_eq_sum, G4_eq_sum]
    have hinner : ∀ j : Fin n,
        (∑ k, ACSF.g4contrib n (a ∘ σ) i j k eta zeta lamb) =
          ∑ k, ACSF.g4contrib n a i (σ j) k eta zeta lamb := by
      intro j
      rw [Finset.sum_congr rfl (fun k _ => g4contrib_perm n a σ i hσ j k eta zeta lamb)]
      exact Equiv.sum_comp σ (fun k => ACSF.g4contrib n a i (σ j) k eta zeta lamb)
    rw [Finset.sum_congr rfl (fun j _ => hinner j)]
    exact Equiv.sum_comp σ (fun j => ∑ k, ACSF.g4contrib n a i j k eta zeta lamb)

/-- Witness for C5: swapping the two non-central atoms of the concrete
configuration leaves G0 at atom 0 unchanged. -/
theorem C5_witness :
    Function.Injective cfg3 ∧ (Equiv.swap (1 : Fin 3) 2) 0 = 0 ∧
      ACSF.G0 3 (cfg3 ∘ Equiv.swap (1 : Fin 3) 2) 0 = ACSF.G0 3 cfg3 0 :=
  ⟨cfg3_inj, by decide,
    (C5_permutation_invariant 3 cfg3 cfg3_inj (Equiv.swap 1 2) 0 (by decide)).1⟩

/-- Claim C1, counterexample: in the concrete configuration `cfg3` the
triplet `(i, j, k) = (0, 1, 2)` has its i-k distance equal to 10 > Rcut,
yet its contribution to `G4[0]` (for the notebook's first parameter triple
`eta = 0.4, zeta = 1, lamb = 1`) is nonzero, because the trimer `fcut` has
no cutoff guard and the loop checks only the i-j distance. -/
theorem C1_counterexample :
    ACSF.Rcut < dist3 (cfg3 0) (cfg3 2) ∧
      ACSF.g4contrib 3 cfg3 0 1 2 0.4 1 1 ≠ 0 := by
  constructor
  · rw [dist3_cfg02, ACSF.Rcut]; norm_num
  · rw [ACSF.g4contrib, if_neg (by decide : ¬((1 : Fin 3) = 0)),
      if_neg (show ¬(dist3 (cfg3 0) (cfg3 1) > ACSF.Rcut) by
        rw [dist3_cfg01, ACSF.Rcut]; norm_num),
      ACSF.g4term, if_neg (by decide : ¬((2 : Fin 3) = 0 ∨ (2 : Fin 3) = 1)),
      ACSF.G4f, dist3_cfg01, dist3_cfg02, dist3_cfg12,
      show dot3 (sub3 (cfg3 0) (cfg3 2)) (sub3 (cfg3 0) (cfg3 1)) = 25 by
        rw [cfg3_zero, cfg3_one, cfg3_two]
        show (0 - 10) * (0 - 2.5) + ((0 : ℝ) - 0) * (0 - 0) + ((0 : ℝ) - 0) * (0 - 0) = 25
        norm_num,
      fcut_at_25, fcut_at_75, fcut_at_10,
      show (25 : ℝ) / (2.5 * 10) = 1 by norm_num]
    exact ne_of_gt (by positivity)

/-- Claim C1 (amended): the hard cutoff holds for G0 and G1 (an atom
farther than Rcut contributes nothing) and for the i-j distance in G4
(a triplet whose i-j distance exceeds Rcut contributes nothing); a triplet
whose i-k or j-k distance exceeds Rcut can still contribute a nonzero
amount, as the counterexample shows. -/
theorem C1_cutoff_amended (n : ℕ) (a : Fin n → Pt) (i j k : Fin n)
    (eta Rs lamb : ℝ) (zeta : ℕ) (h : ACSF.Rcut < dist3 (a i) (a j)) :
    ACSF.g0term n a i j = 0 ∧ ACSF.g1term n a i j eta Rs = 0 ∧
      ACSF.g4contrib n a i j k eta zeta lamb = 0 := by
  refine ⟨?_, ?_, ?_⟩
  · rw [ACSF.g0term]
    by_cases h1 : j = i
    · rw [if_pos h1]
    · rw [if_neg h1, if_pos h]
  · rw [ACSF.g1term]
    by_cases h1 : j = i
    · rw [if_pos h1]
    · rw [if_neg h1, if_pos h]
  · rw [ACSF.g4contrib]
    by_cases h1 : j = i
    · rw [if_pos h1]
    · rw [if_neg h1, if_pos h]

/-- Witness for C1 (amended) at the concrete configuration: the pair
`(0, 2)` is 10 > Rcut apart and contributes nothing. -/
theorem C1_witness :
    ACSF.Rcut < dist3 (cfg3 0) (cfg3 2) ∧
      (ACSF.g0term 3 cfg3 0 2 = 0 ∧ ACSF.g1term 3 cfg3 0 2 0.4 0.2 = 0 ∧
        ACSF.g4contrib 3 cfg3 0 2 1 0.4 1 1 = 0) := by
  have h : ACSF.Rcut < dist3 (cfg3 0) (cfg3 2) := by
    rw [dist3_cfg02, ACSF.Rcut]; norm_num
  exact ⟨h, C1_cutoff_amended 3 cfg3 0 2 1 0.4 0.2 1 1 h⟩

lemma dists_ceil_val : ⌈((5 : ℚ) - 1.95) / (5 / 30)⌉ = 19 := by
  rw [show ((5 : ℚ) - 1.95) / (5 / 30) = 183 / 10 by norm_num, Int.ceil_eq_iff] <;> norm_num

lemma distsQ_len : Dimer.distsQ.length = 19 := by
  rw [Dimer.distsQ, arangeQ, List.length_map, List.length_range, dists_ceil_val]
  rfl

lemma distsQ_bounds : ∀ q ∈ Dimer.distsQ, 0 ≤ q ∧ q < 5 := by
  intro q hq
  rw [Dimer.distsQ, arangeQ, dists_ceil_val] at hq
  obtain ⟨k, hk, rfl⟩ := List.mem_map.mp hq
  rw [List.mem_range] at hk
  have hk18 : (k : ℚ) ≤ 18 := by
    have h : k ≤ 18 := by omega
    exact_mod_cast h
  refine ⟨by positivity, ?_⟩
  have hmul : (k : ℚ) * (5 / 30) ≤ 18 * (5 / 30) :=
    mul_le_mul_of_nonneg_right hk18 (by norm_num)
  have h195 : (1.95 : ℚ) + (k : ℚ) * (5 / 30) ≤ 1.95 + 3 := by
    norm_num at hmul ⊢
    linarith
  linarith

lemma dists_len : Dimer.dists.length = 19 := by
  rw [Dimer.dists, List.length_map, distsQ_len]

lemma dists_bounds : ∀ r ∈ Dimer.dists, 0 ≤ r ∧ r < 5 := by
  intro r hr
  rw [Dimer.dists] at hr
  obtain ⟨q, hq, rfl⟩ := List.mem_map.mp hr
  obtain ⟨h0, h5⟩ := distsQ_bounds q hq
  constructor
  · exact_mod_cast h0
  · exact_mod_cast h5

/-- The dimer cutoff function is strictly positive strictly inside the
cutoff radius. -/
lemma Dimer_fcut_pos (r : ℝ) (h0 : 0 ≤ r) (h5 : r < 5) : 0 < Dimer.fcut r := by
  rw [Dimer.fcut, Dimer.Rcut, if_neg (not_le.mpr h5)]
  have hx0 : 0 ≤ Real.pi * r / 5 := by positivity
  have hxpi : Real.pi * r / 5 < Real.pi := by
    have := Real.pi_pos
    rw [div_lt_iff (by norm_num)]
    nlinarith
  have hcos : Real.cos Real.pi < Real.cos (Real.pi * r / 5) := by
    apply Real.strictAntiOn_cos
    · exact Set.mem_Icc.mpr ⟨le_refl 0 |>.trans hx0, le_of_lt hxpi⟩
    · exact Set.mem_Icc.mpr ⟨le_of_lt Real.pi_pos, le_refl _⟩
    · exact hxpi
  rw [Real.cos_pi] at hcos
  nlinarith

lemma acsf_len : Dimer.acsf.length = 19 := by
  rw [Dimer.acsf, List.length_map, dists_len]

lemma acsf_row_len : ∀ k : ℕ, k < Dimer.acsf.length →
    (Dimer.acsf.getD k []).length = 1 + Dimer.params.length := by
  intro k hk
  rw [Dimer.acsf] at hk ⊢
  rw [List.length_map] at hk
  rw [List.getD_eq_getElem _ _ (by simpa using hk), List.getElem_map]
  simp [Dimer.params]

lemma centerCols_row (m : List (List ℝ)) (k : ℕ) (hk : k < m.length) :
    (centerCols m).getD k [] =
      (List.range (m.getD k []).length).map
        (fun c => (m.getD k []).getD c 0 - npmeanCol m c) := by
  rw [centerCols, List.getD_eq_getElem _ _ (by simpa using hk), List.getElem_map,
    List.getD_eq_getElem m [] hk]

lemma centerCols_entry (m : List (List ℝ)) (k c : ℕ) (hk : k < m.length)
    (hc : c < (m.getD k []).length) :
    ((centerCols m).getD k []).getD c 0 = (m.getD k []).getD c 0 - npmeanCol m c := by
  rw [centerCols_row m k hk,
    List.getD_eq_getElem _ _ (by simpa using hc), List.getElem_map, List.getElem_range]

lemma centerCols_row_len (m : List (List ℝ)) (k : ℕ) (hk : k < m.length) :
    ((centerCols m).getD k []).length = (m.getD k []).length := by
  rw [centerCols_row m k hk, List.length_map, List.length_range]

lemma centerCols_len (m : List (List ℝ)) : (centerCols m).length = m.length := by
  rw [centerCols, List.length_map]

lemma scaleCols_row (m : List (List ℝ)) (k : ℕ) (hk : k < m.length) :
    (scaleCols m).getD k [] =
      (List.range (m.getD k []).length).map
        (fun c => (m.getD k []).getD c 0 / npstdCol m c) := by
  rw [scaleCols, List.getD_eq_getElem _ _ (by simpa using hk), List.getElem_map,
    List.getD_eq_getElem m [] hk]

lemma scaleCols_entry (m : List (List ℝ)) (k c : ℕ) (hk : k < m.length)
    (hc : c < (m.getD k []).length) :
    ((scaleCols m).getD k []).getD c 0 = (m.getD k []).getD c 0 / npstdCol m c := by
  rw [scaleCols_row m k hk,
    List.getD_eq_getElem _ _ (by simpa using hc), List.getElem_map, List.getElem_range]

/-- Column 0 of the filled dimer matrix is the list of cutoff values. -/
lemma acsf_col0 : colList Dimer.acsf 0 = Dimer.dists.map Dimer.fcut := by
  rw [colList, Dimer.acsf, List.map_map]
  rfl

/-- The mean of the first column of the filled dimer matrix is positive:
every configuration distance lies in `[1.95, 5)`, where the guarded cutoff
function is positive. -/
lemma acsf_mean0_pos : 0 < npmeanCol Dimer.acsf 0 := by
  rw [npmeanCol, acsf_col0, npmean]
  apply div_pos
  · apply List.sum_pos
    · intro x hx
      obtain ⟨r, hr, rfl⟩ := List.mem_map.mp hx
      obtain ⟨h0, h5⟩ := dists_bounds r hr
      exact Dimer_fcut_pos r h0 h5
    · intro hemp
      have hlen := congrArg List.length hemp
      rw [List.length_map, dists_len] at hlen
      simp at hlen
  · rw [List.length_map, dists_len]
    norm_num

/-- Claim C7 (confirmed): the dimer matrix has one row per configuration
and `1 + len(params)` columns; the trimer G1 matrix has one row per atom
and one column per parameter pair. -/
theorem C7_shape_consistency :
    Dimer.acsf.length = Dimer.nConfs ∧
    (∀ k : ℕ, k < Dimer.acsf.length →
      (Dimer.acsf.getD k []).length = 1 + Dimer.params.length) ∧
    ACSF.G1mat.length = 3 ∧
    (∀ r : ℕ, r < ACSF.G1mat.length → (ACSF.G1mat.getD r []).length = ACSF.p.length) := by
  refine ⟨?_, acsf_row_len, ?_, ?_⟩
  · rw [Dimer.acsf, Dimer.nConfs, List.length_map]
  · rw [ACSF.G1mat, List.length_map, List.length_finRange]
  · intro r hr
    rw [ACSF.G1mat, List.length_map] at hr
    rw [ACSF.G1mat, List.getD_eq_getElem _ _ (by simpa using hr), List.getElem_map,
      List.length_map]

/-- Witness for C7: the first row of each matrix has the stated width. -/
theorem C7_witness :
    0 < Dimer.acsf.length ∧ (Dimer.acsf.getD 0 []).length = 1 + Dimer.params.length ∧
    0 < ACSF.G1mat.length ∧ (ACSF.G1mat.getD 0 []).length = ACSF.p.length := by
  have h1 : 0 < Dimer.acsf.length := by rw [acsf_len]; norm_num
  have h2 : 0 < ACSF.G1mat.length := by
    rw [ACSF.G1mat, List.length_map, List.length_finRange]
    norm_num
  exact ⟨h1, C7_shape_consistency.2.1 0 h1, h2, C7_shape_consistency.2.2.2 0 h2⟩

/-- Claim C3, counterexample: the dimer notebook's standardization cell does
change the computed descriptor matrix: already its centering loop changes
entry `(0, 0)` of `acsf`, because the mean of the first column (a sum of
strictly positive cutoff values) is nonzero. -/
theorem C3_counterexample :
    ((centerCols Dimer.acsf).getD 0 []).getD 0 0 ≠ (Dimer.acsf.getD 0 []).getD 0 0 := by
  have hk : 0 < Dimer.acsf.length := by rw [acsf_len]; norm_num
  have hc : 0 < (Dimer.acsf.getD 0 []).length := by
    rw [acsf_row_len 0 hk]
    norm_num
  rw [centerCols_entry Dimer.acsf 0 0 hk hc]
  intro heq
  rw [sub_eq_self] at heq
  exact absurd heq (ne_of_gt acsf_mean0_pos)

/-- Claim C3 (amended): the only operation after the fill loop that changes
the dimer descriptor matrix is the standardization cell, which rewrites
every entry to its columnwise standardized value: entry `(k, c)` of the
matrix after the two standardization loops equals
`(acsf[k,c] - mean(acsf[:,c])) / std(centered acsf[:,c])`. -/
theorem C3_standardized_entries (k c : ℕ) (hk : k < Dimer.acsf.length)
    (hc : c < (Dimer.acsf.getD k []).length) :
    ((scaleCols (centerCols Dimer.acsf)).getD k []).getD c 0 =
      ((Dimer.acsf.getD k []).getD c 0 - npmeanCol Dimer.acsf c) /
        npstdCol (centerCols Dimer.acsf) c := by
  have hk2 : k < (centerCols Dimer.acsf).length := by
    rw [centerCols_len]
    exact hk
  have hc2 : c < ((centerCols Dimer.acsf).getD k []).length := by
    rw [centerCols_row_len Dimer.acsf k hk]
    exact hc
  rw [scaleCols_entry (centerCols Dimer.acsf) k c hk2 hc2,
    centerCols_entry Dimer.acsf k c hk hc]

/-- Witness for C3 (amended) at entry `(0, 0)`. -/
theorem C3_witness :
    0 < Dimer.acsf.length ∧ 0 < (Dimer.acsf.getD 0 []).length ∧
    ((scaleCols (centerCols Dimer.acsf)).getD 0 []).getD 0 0 =
      ((Dimer.acsf.getD 0 []).getD 0 0 - npmeanCol Dimer.acsf 0) /
        npstdCol (centerCols Dimer.acsf) 0 := by
  have hk : 0 < Dimer.acsf.length := by rw [acsf_len]; norm_num
  have hc : 0 < (Dimer.acsf.getD 0 []).length := by
    rw [acsf_row_len 0 hk]
    norm_num
  exact ⟨hk, hc, C3_standardized_entries 0 0 hk hc⟩
